import Mathlib

/-!
Verification of the retrieval-and-filter pipeline in `src/app.py`
(YT Prospect Finder). The Python script is embedded shallowly:

* `_safe_execute` (lines 36-66) becomes `safe_execute`, driven by an
  oracle `att : Nat → Attempt α` giving the outcome of each attempt
  (1-based, as in the Python loop `range(1, retries + 1)`); `st.stop()` becomes an
  abort constructor of `ExecResult`; `time.sleep(backoff ** attempt)` is
  recorded in an explicit sleep trace.
* `chunked`, `safe_int`, `parse_duration_minutes` (lines 84-100) become
  plain functions; the Python string form of `int(x)` is modelled by `py_int?`
  (optional sign + decimal digits) and `isodate.parse_duration` — an
  external library — is passed in as a parameter returning total seconds.
* `search_videos` (103-128) is driven by a provider oracle indexed by call
  number and requested page size; the pandas stages (merge, filters,
  `views_per_day`, `build_links`) act on explicit record lists, with floats
  as ℚ and timestamps as ℚ days (so `(NOW - publishedAt)` in days is
  `now - r.publishedAt`).
* The Streamlit control flow of lines 279-416 is abstracted into
  `pipeline_events`, a trace of messages/tables/stops as a function of the
  emptiness of each stage.
-/

namespace YTProspect

/-- Outcome of one `request.execute()` attempt: a decoded response, an
`HttpError` carrying the extracted `reason` string, or any other exception
(the bare `except Exception` branch). -/
inductive Attempt (α : Type) where
  | success (resp : α)
  | httpError (reason : String)
  | excError (msg : String)
deriving DecidableEq

/-- The three terminal error categories of `_safe_execute` (app.py 52-60). -/
inductive TerminalKind where
  | quota
  | key
  | badRequest
deriving DecidableEq

/-- Result of `_safe_execute`: a response, a category-specific abort
(`st.error` + `st.stop`), or the post-loop abort reporting the last error. -/
inductive ExecResult (α : Type) where
  | ok (resp : α)
  | abortQuota
  | abortKey
  | abortBadRequest
  | abortExhausted (last : Option (Attempt α))
deriving DecidableEq

def ExecResult.ofTerminal {α : Type} : TerminalKind → ExecResult α
  | .quota => .abortQuota
  | .key => .abortKey
  | .badRequest => .abortBadRequest

/-- Classification of an `HttpError` reason (app.py 52-60): quota/daily
limit, invalid/forbidden/blocked key, bad request, or none (retried). -/
def classifyTerminal (reason : String) : Option TerminalKind :=
  if reason = "quotaExceeded" ∨ reason = "dailyLimitExceeded" then some .quota
  else if reason = "keyInvalid" ∨ reason = "forbidden" ∨ reason = "ipRefererBlocked" then
    some .key
  else if reason = "badRequest" then some .badRequest
  else none

/-- An attempt outcome that makes `_safe_execute` sleep and retry: an
`HttpError` with a non-terminal reason, or any non-Http exception. -/
def nonTerminalB {α : Type} : Attempt α → Bool
  | .success _ => false
  | .httpError r => (classifyTerminal r).isNone
  | .excError _ => true

/-- The retry loop of `_safe_execute` (app.py 39-64). `attempt` is the
1-based loop counter, `fuel` the remaining iterations, `last` the running
`last_err`, `sleeps` the trace of `time.sleep(backoff ** attempt)` calls. -/
def safe_execute_aux {α : Type} (att : Nat → Attempt α) (backoff : ℚ) (attempt : Nat) :
    Nat → Option (Attempt α) → List ℚ → ExecResult α × List ℚ
  | 0, last, sleeps => (.abortExhausted last, sleeps)
  | fuel + 1, _last, sleeps =>
    match att attempt with
    | .success r => (.ok r, sleeps)
    | .httpError reason =>
      match classifyTerminal reason with
      | some k => (ExecResult.ofTerminal k, sleeps)
      | none =>
        safe_execute_aux att backoff (attempt + 1) fuel (some (.httpError reason))
          (sleeps ++ [backoff ^ attempt])
    | .excError m =>
      safe_execute_aux att backoff (attempt + 1) fuel (some (.excError m))
        (sleeps ++ [backoff ^ attempt])

/-- Function `_safe_execute(request, label, retries, backoff)`: attempts run for
`attempt = 1, …, retries`; the result and the sleep trace. -/
def safe_execute {α : Type} (att : Nat → Attempt α) (retries : Nat) (backoff : ℚ) :
    ExecResult α × List ℚ :=
  safe_execute_aux att backoff 1 retries none []

/-- The sleeps performed by the first `k` (all non-terminal) attempts:
`backoff ** 1, …, backoff ** k`. -/
def sleepSchedule (backoff : ℚ) (k : Nat) : List ℚ :=
  (List.range k).map fun j => backoff ^ (1 + j)

/-- Function `chunked(lst, size)` (app.py 84-85):
`[lst[i : i + size] for i in range(0, len(lst), size)]` — the slice
starting at `i * size` for each of the `⌈len/size⌉` values produced by
`range(0, len(lst), size)`. -/
def chunked (lst : List String) (size : Nat) : List (List String) :=
  (List.range ((lst.length + size - 1) / size)).map fun i => (lst.drop (i * size)).take size

/-- Accumulating decimal-digit parser over the characters of a string. -/
def digitsAux : List Char → Nat → Option Nat
  | [], acc => some acc
  | c :: cs, acc =>
    if c.isDigit then digitsAux cs (acc * 10 + (c.toNat - 48)) else none

/-- Python `int(x)` on a string, modelled on the optional-sign +
decimal-digits fragment (Python additionally strips whitespace and allows
underscores and unicode digits — irrelevant to the properties checked
here); `none` models the `ValueError`. -/
def py_int? (s : String) : Option Int :=
  match s.data with
  | [] => none
  | '-' :: cs =>
    if cs.isEmpty then none else (digitsAux cs 0).map fun n => -(n : Int)
  | '+' :: cs =>
    if cs.isEmpty then none else (digitsAux cs 0).map fun n => (n : Int)
  | cs => (digitsAux cs 0).map fun n => (n : Int)

/-- Function `safe_int(x, default)` (app.py 88-92). The input is the value of
`dict.get`: `none` (Python `None`, `int` raises `TypeError`) or a string. -/
def safe_int (x : Option String) (default : Int) : Int :=
  match x with
  | none => default
  | some s => (py_int? s).getD default

/-- Function `parse_duration_minutes` (app.py 95-100). `isodateParse` stands for the
external `isodate.parse_duration`, returning total seconds on success;
any failure yields `0.0`. -/
def parse_duration_minutes (isodateParse : String → Option ℚ) (s : String) : ℚ :=
  match isodateParse s with
  | some totalSeconds => totalSeconds / 60
  | none => 0

/-- One page of a search response: the `id.videoId` of each entry (`none`
when the entry lacks a usable identifier) and the `nextPageToken`. -/
structure SearchPage where
  items : List (Option String)
  nextPageToken : Option String

/-- The loop of `search_videos` (app.py 106-127). `provider call m` is the
page returned by the `call`-th request (0-based) when `maxResults = m`;
`fuel` bounds the number of loop iterations (the Python loop has no bound
of its own). Returns the collected identifiers and the list of
`maxResults` values requested. -/
def search_videos_aux (provider : Nat → Nat → SearchPage) (limit : Nat) :
    Nat → Nat → List String → List String × List Nat
  | _, 0, acc => (acc, [])
  | call, fuel + 1, acc =>
    if acc.length < limit then
      let m := min 50 (limit - acc.length)
      let p := provider call m
      let acc2 := acc ++ p.items.filterMap id
      match p.nextPageToken with
      | none => (acc2, [m])
      | some _ =>
        let rest := search_videos_aux provider limit (call + 1) fuel acc2
        (rest.1, m :: rest.2)
    else (acc, [])

/-- Function `search_videos(service, query, region, published_after_iso, limit)`. -/
def search_videos (provider : Nat → Nat → SearchPage) (limit : Nat) (fuel : Nat) :
    List String × List Nat :=
  search_videos_aux provider limit 0 fuel []

/-- One item of a `videos().list` response (app.py 142-147): `it.get("id")`,
the snippet/statistics/contentDetails fields read by the row builder.
Each thumbnail tier is `none` when the dict is absent, `some u` when it is
present with `u` its optional `"url"` entry. -/
structure VideoItem where
  id : Option String
  title : Option String
  publishedAt : Option String
  channelId : Option String
  channelTitle : Option String
  categoryId : Option String
  viewCount : Option String
  likeCount : Option String
  commentCount : Option String
  duration : Option String
  thumbHigh : Option (Option String)
  thumbMedium : Option (Option String)
  thumbDefault : Option (Option String)
deriving DecidableEq

/-- Expression `th.get("high", th.get("medium", th.get("default", {}))).get("url")`
(app.py 147): the first present tier is chosen, then its `"url"` read. -/
def pick_thumb (high medium default : Option (Option String)) : Option String :=
  match high with
  | some u => u
  | none =>
    match medium with
    | some u => u
    | none =>
      match default with
      | some u => u
      | none => none

/-- One row appended by `get_videos_stats` (app.py 148-162). -/
structure VideoRow where
  videoId : Option String
  title : Option String
  publishedAt : Option String
  channelId : Option String
  channelTitle_video : Option String
  categoryId : Option String
  views : Int
  likes : Int
  comments : Int
  duration_min : ℚ
  thumbnail : Option String
deriving DecidableEq

/-- The row-building dict of app.py 148-162 for one response item. -/
def rowOfItem (isodateParse : String → Option ℚ) (it : VideoItem) : VideoRow where
  videoId := it.id
  title := it.title
  publishedAt := it.publishedAt
  channelId := it.channelId
  channelTitle_video := it.channelTitle
  categoryId := it.categoryId
  views := safe_int it.viewCount 0
  likes := safe_int it.likeCount 0
  comments := safe_int it.commentCount 0
  duration_min := parse_duration_minutes isodateParse (it.duration.getD "PT0M")
  thumbnail := pick_thumb it.thumbHigh it.thumbMedium it.thumbDefault

/-- The chunk loop of `get_videos_stats` (app.py 131-163).
`oracle chunk attempt` is the outcome of the `attempt`-th execution of the
request for the `chunk`-th batch; each batch goes through `_safe_execute`,
whose abort (`st.stop`) ends the whole run — modelled as `Except.error`
discarding all rows built so far. -/
def get_videos_stats_aux (isodateParse : String → Option ℚ)
    (oracle : Nat → Nat → Attempt (List VideoItem)) (retries : Nat) (backoff : ℚ) :
    List (List String) → Nat → List VideoRow →
      Except (ExecResult (List VideoItem)) (List VideoRow)
  | [], _, rows => .ok rows
  | _batch :: bs, i, rows =>
    match (safe_execute (oracle i) retries backoff).1 with
    | .ok items =>
      get_videos_stats_aux isodateParse oracle retries backoff bs (i + 1)
        (rows ++ items.map (rowOfItem isodateParse))
    | e => .error e

/-- Function `get_videos_stats(service, video_ids)` (app.py 131-163). -/
def get_videos_stats (isodateParse : String → Option ℚ)
    (oracle : Nat → Nat → Attempt (List VideoItem)) (retries : Nat) (backoff : ℚ)
    (video_ids : List String) : Except (ExecResult (List VideoItem)) (List VideoRow) :=
  get_videos_stats_aux isodateParse oracle retries backoff (chunked video_ids 50) 0 []

/-- Variable `all_video_ids` (app.py 272-277): `extend` of every per-query result,
in order, with no deduplication. -/
def all_video_ids (perQuery : List (List String)) : List String :=
  perQuery.flatten

/-- Variable `unique_channels` (app.py 291-295):
`sorted(videos_df["channelId"].dropna().unique().tolist())`. `dropna` is
`filterMap id`, `unique` is `dedup` (order irrelevant under the sort), and
`sorted` is an insertion sort by `≤` on strings. -/
def unique_channels (channelIds : List (Option String)) : List String :=
  List.insertionSort (· ≤ ·) (channelIds.filterMap id).dedup

/-- One row of `merged` after the left join, `channelTitle` resolution and
date normalisation (app.py 298-309). `publishedAt` is the normalised
offset-naive timestamp measured in days (ℚ); `subs` is `none` when the
left join matched no channel row (pandas `NaN`, every comparison false). -/
structure MergedRow where
  videoId : String
  title : String
  publishedAt : ℚ
  channelId : String
  channelTitle : String
  categoryId : String
  views : Int
  likes : Int
  comments : Int
  duration_min : ℚ
  thumbnail : Option String
  subs : Option Int
  country : Option String
deriving DecidableEq

/-- Record `MergedRow` with the two URL columns appended by `build_links`. -/
structure LinkedRow extends MergedRow where
  videoUrl : String
  channelUrl : String
deriving DecidableEq

/-- Function `build_links(df)` (app.py 191-195): copies the frame and adds
`videoUrl`/`channelUrl` derived from `videoId`/`channelId`. -/
def build_links (df : List MergedRow) : List LinkedRow :=
  df.map fun r =>
    { toMergedRow := r
      videoUrl := "https://www.youtube.com/watch?v=" ++ r.videoId
      channelUrl := "https://www.youtube.com/channel/" ++ r.channelId }

/-- A pandas comparison of a possibly-`NaN` subscriber count: `NaN`
(`none`) compares false. -/
def subsCmp (subs : Option Int) (p : Int → Bool) : Bool :=
  match subs with
  | none => false
  | some s => p s

/-- The trending boolean mask (app.py 315-321):
`subs ≥ 0 ∧ subs ≤ max_subs_hot ∧ duration_min ≥ min_dur_hot ∧
views ≥ min_views_hot ∧ publishedAt ≥ cutoff`. -/
def trendingFilter (max_subs_hot : Int) (min_dur_hot : ℚ) (min_views_hot : Int)
    (cutoff : ℚ) (r : MergedRow) : Bool :=
  subsCmp r.subs (fun s => decide (0 ≤ s)) &&
    subsCmp r.subs (fun s => decide (s ≤ max_subs_hot)) &&
    decide (min_dur_hot ≤ r.duration_min) &&
    decide ((min_views_hot : Int) ≤ r.views) &&
    decide (cutoff ≤ r.publishedAt)

/-- The general-table mask (app.py 375-379): `views ≥ min_views_general ∧
duration_min ≥ min_duration_general`, then `subs ≥ 0 ∧ subs ≤
max_subs_general`. -/
def generalFilter (min_views_general : Int) (min_duration_general : ℚ)
    (max_subs_general : Int) (r : MergedRow) : Bool :=
  decide (min_views_general ≤ r.views) &&
    decide (min_duration_general ≤ r.duration_min) &&
    (subsCmp r.subs (fun s => decide (0 ≤ s)) &&
      subsCmp r.subs (fun s => decide (s ≤ max_subs_general)))

/-- Expression `delta_days.replace(0, 0.0001)` (app.py 325): only a delta equal to
exactly zero is replaced by `0.0001`. -/
def viewsPerDayDivisor (delta_days : ℚ) : ℚ :=
  if delta_days = 0 then 1 / 10000 else delta_days

/-- pandas `.round(1)`: one decimal place. pandas rounds halves to even
while `round` rounds halves up; the claims checked here (sign, zero
divisor) are insensitive to the tie-breaking rule. -/
def roundTo1 (x : ℚ) : ℚ :=
  ((round (10 * x) : ℤ) : ℚ) / 10

/-- Column `views_per_day` of one trending row (app.py 324-325), with
`delta_days = (NOW_UTC - publishedAt)` in days. -/
def views_per_day (views : Int) (delta_days : ℚ) : ℚ :=
  roundTo1 ((views : ℚ) / viewsPerDayDivisor delta_days)

/-- The trending view before sorting (app.py 315-325): the filtered rows,
each paired with its `views_per_day` value. -/
def trendingWithVelocity (rows : List MergedRow) (max_subs_hot : Int) (min_dur_hot : ℚ)
    (min_views_hot : Int) (cutoff now : ℚ) : List (MergedRow × ℚ) :=
  (rows.filter (trendingFilter max_subs_hot min_dur_hot min_views_hot cutoff)).map
    fun r => (r, views_per_day r.views (now - r.publishedAt))

/-- User-visible pipeline events of app.py 279-416. -/
inductive Event where
  | warnNoVideos
  | infoNoCategory
  | infoNoTrending
  | tableTrending
  | warnNoGeneral
  | tableGeneral
  | stopped
deriving DecidableEq

/-- The control flow of app.py 279-416 as a function of the emptiness of
each stage: `videos_df.empty` → warning + `st.stop`; category selected and
the restriction empty → info + `st.stop`; `trending.empty` → info (no
stop), else the trending table; then, unless "somente Em Alta" is on,
`general.empty` → warning + `st.stop`, else the general table. -/
def pipeline_events (videosEmpty categorySelected categoryEmpty trendingEmpty
    showOnlyTrending generalEmpty : Bool) : List Event :=
  if videosEmpty then [.warnNoVideos, .stopped]
  else if categorySelected && categoryEmpty then [.infoNoCategory, .stopped]
  else
    (if trendingEmpty then [.infoNoTrending] else [.tableTrending]) ++
      if showOnlyTrending then []
      else if generalEmpty then [.warnNoGeneral, .stopped]
      else [.tableGeneral]

/-- The `last_err` value after `k` consecutive non-terminal attempts beginning at
attempt number `a`. -/
def lastAfter {α : Type} (att : Nat → Attempt α) (a k : Nat) (last : Option (Attempt α)) :
    Option (Attempt α) :=
  if k = 0 then last else some (att (a + k - 1))

lemma safe_execute_aux_skip {α : Type} (att : Nat → Attempt α) (backoff : ℚ) :
    ∀ (k a fuel : Nat) (last : Option (Attempt α)) (sleeps : List ℚ),
      (∀ j < k, nonTerminalB (att (a + j)) = true) →
      safe_execute_aux att backoff a (k + fuel) last sleeps =
        safe_execute_aux att backoff (a + k) fuel (lastAfter att a k last)
          (sleeps ++ (List.range k).map fun j => backoff ^ (a + j))
  | 0, a, fuel, last, sleeps, _h => by simp [lastAfter]
  | k + 1, a, fuel, last, sleeps, h => by
    have h0 : nonTerminalB (att a) = true := by
      have := h 0 (Nat.succ_pos k)
      simpa using this
    have hrange : (List.range (k + 1)).map (fun j => backoff ^ (a + j)) =
        backoff ^ a :: (List.range k).map fun j => backoff ^ (a + 1 + j) := by
      rw [List.range_succ_eq_map, List.map_cons, List.map_map]
      congr 1
      refine List.map_congr_left fun j hj => ?_
      simp only [Function.comp_apply]
      congr 1
      omega
    have hnext : ∀ j < k, nonTerminalB (att (a + 1 + j)) = true := by
      intro j hj
      rw [show a + 1 + j = a + (j + 1) by omega]
      exact h (j + 1) (by omega)
    have hidx : a + (k + 1) = a + 1 + k := by omega
    cases hatt : att a with
    | success r =>
      rw [hatt] at h0
      simp [nonTerminalB] at h0
    | httpError reason =>
      have hcls : classifyTerminal reason = none := by
        rw [hatt] at h0
        simpa [nonTerminalB, Option.isNone_iff_eq_none] using h0
      have hlast : lastAfter att (a + 1) k (some (Attempt.httpError reason)) =
          lastAfter att a (k + 1) last := by
        rcases Nat.eq_zero_or_pos k with hk | hk
        · subst hk
          simp [lastAfter, hatt]
        · have hne : k ≠ 0 := by omega
          simp only [lastAfter, if_neg hne, if_neg (Nat.succ_ne_zero k)]
          congr 2
          omega
      have hrec := safe_execute_aux_skip att backoff k (a + 1) fuel
        (some (Attempt.httpError reason)) (sleeps ++ [backoff ^ a]) hnext
      have hfuel : k + 1 + fuel = k + fuel + 1 := by omega
      rw [hfuel]
      simp only [safe_execute_aux, hatt, hcls]
      rw [hrec, hlast, hrange, hidx]
      simp [List.append_assoc]
    | excError m =>
      have hlast : lastAfter att (a + 1) k (some (Attempt.excError m)) =
          lastAfter att a (k + 1) last := by
        rcases Nat.eq_zero_or_pos k with hk | hk
        · subst hk
          simp [lastAfter, hatt]
        · have hne : k ≠ 0 := by omega
          simp only [lastAfter, if_neg hne, if_neg (Nat.succ_ne_zero k)]
          congr 2
          omega
      have hrec := safe_execute_aux_skip att backoff k (a + 1) fuel
        (some (Attempt.excError m)) (sleeps ++ [backoff ^ a]) hnext
      have hfuel : k + 1 + fuel = k + fuel + 1 := by omega
      rw [hfuel]
      simp only [safe_execute_aux, hatt]
      rw [hrec, hlast, hrange, hidx]
      simp [List.append_assoc]

/-- After `k` non-terminal attempts, a terminal `HttpError` reason aborts at
once with its category message: no sleep and no retry follow it. -/
lemma safe_execute_terminal {α : Type} (att : Nat → Attempt α) (retries : Nat) (backoff : ℚ)
    (k : Nat) (reason : String) (t : TerminalKind) (hk : k < retries)
    (hpre : ∀ j < k, nonTerminalB (att (1 + j)) = true)
    (hatt : att (1 + k) = .httpError reason) (hcls : classifyTerminal reason = some t) :
    safe_execute att retries backoff = (ExecResult.ofTerminal t, sleepSchedule backoff k) := by
  obtain ⟨f, hf⟩ : ∃ f, retries - k = f + 1 := ⟨retries - k - 1, by omega⟩
  have hsplit : retries = k + (retries - k) := by omega
  rw [safe_execute, hsplit, safe_execute_aux_skip att backoff k 1 (retries - k) none [] hpre,
    hf]
  simp only [safe_execute_aux, hatt, hcls, List.nil_append, sleepSchedule]

/-- After `k` non-terminal attempts, a successful attempt returns its
response, having slept exactly once per failed attempt. -/
lemma safe_execute_success {α : Type} (att : Nat → Attempt α) (retries : Nat) (backoff : ℚ)
    (k : Nat) (r : α) (hk : k < retries)
    (hpre : ∀ j < k, nonTerminalB (att (1 + j)) = true) (hatt : att (1 + k) = .success r) :
    safe_execute att retries backoff = (.ok r, sleepSchedule backoff k) := by
  obtain ⟨f, hf⟩ : ∃ f, retries - k = f + 1 := ⟨retries - k - 1, by omega⟩
  have hsplit : retries = k + (retries - k) := by omega
  rw [safe_execute, hsplit, safe_execute_aux_skip att backoff k 1 (retries - k) none [] hpre,
    hf]
  simp only [safe_execute_aux, hatt, List.nil_append, sleepSchedule]

/-- When every one of the `retries` attempts fails non-terminally, the loop
exits and the run aborts reporting the last error, having slept
`backoff ** attempt` after every attempt, the last included. -/
lemma safe_execute_exhausted {α : Type} (att : Nat → Attempt α) (retries : Nat) (backoff : ℚ)
    (hpos : 0 < retries) (hpre : ∀ j < retries, nonTerminalB (att (1 + j)) = true) :
    safe_execute att retries backoff =
      (.abortExhausted (some (att retries)), sleepSchedule backoff retries) := by
  rw [safe_execute]
  have hskip := safe_execute_aux_skip att backoff retries 1 0 none []
    (fun j hj => hpre j (by omega))
  rw [Nat.add_zero] at hskip
  rw [hskip]
  have hne : retries ≠ 0 := by omega
  simp only [safe_execute_aux, lastAfter, if_neg hne, List.nil_append, sleepSchedule]
  rw [show 1 + retries - 1 = retries by omega]

lemma chunked_eq (lst : List String) (size : Nat) :
    chunked lst size =
      if size = 0 then []
      else if lst.isEmpty then []
      else lst.take size :: chunked (lst.drop size) size := by
  by_cases hs : size = 0
  · subst hs
    simp [chunked]
  · rcases eq_or_ne lst [] with hnil | hne
    · subst hnil
      have h0 : (size - 1) / size = 0 := Nat.div_eq_of_lt (by omega)
      simp [chunked, h0]
    · have hpos : 0 < lst.length := List.length_pos.mpr hne
      rw [if_neg hs, if_neg (by simpa [List.isEmpty_iff] using hne)]
      obtain ⟨m, hm⟩ : ∃ m, (lst.length + size - 1) / size = m + 1 := by
        have h1 : 1 ≤ (lst.length + size - 1) / size :=
          (Nat.le_div_iff_mul_le (by omega)).mpr (by omega)
        exact ⟨(lst.length + size - 1) / size - 1, by omega⟩
      rw [chunked, hm, List.range_succ_eq_map, List.map_cons, List.map_map]
      congr 1
      · simp
      · rw [chunked]
        have hm2 : ((lst.drop size).length + size - 1) / size = m := by
          simp only [List.length_drop]
          rcases le_or_lt lst.length size with hle | hlt
          · have h0 : lst.length - size = 0 := by omega
            rw [h0]
            have h1 : (0 + size - 1) / size = 0 := Nat.div_eq_of_lt (by omega)
            have h2 : (lst.length + size - 1) / size = 1 :=
              Nat.div_eq_of_lt_le (by omega) (by omega)
            omega
          · have h3 : lst.length - size + size - 1 = lst.length - 1 := by omega
            have h4 : lst.length + size - 1 = lst.length - 1 + size := by omega
            rw [h3]
            rw [h4, Nat.add_div_right _ (by omega)] at hm
            omega
        rw [hm2]
        refine List.map_congr_left fun i hi => ?_
        simp only [Function.comp_apply]
        rw [List.drop_drop]
        congr 2
        rw [Nat.succ_mul]
        ring

lemma chunked_flatten {size : Nat} (hs : 0 < size) :
    ∀ (n : Nat) (lst : List String), lst.length ≤ n → (chunked lst size).flatten = lst := by
  intro n
  induction n with
  | zero =>
    intro lst hlen
    have : lst = [] := List.eq_nil_of_length_eq_zero (by omega)
    subst this
    simp [chunked_eq]
  | succ n ih =>
    intro lst hlen
    rcases eq_or_ne lst [] with hnil | hne
    · subst hnil
      simp [chunked_eq]
    · rw [chunked_eq, if_neg (by omega), if_neg (by simpa [List.isEmpty_iff] using hne)]
      rw [List.flatten_cons, ih (lst.drop size) (by
        have : 0 < lst.length := List.length_pos.mpr hne
        simp only [List.length_drop]
        omega)]
      exact List.take_append_drop size lst

lemma chunked_length {size : Nat} (hs : 0 < size) :
    ∀ (n : Nat) (lst : List String), lst.length ≤ n →
      (chunked lst size).length = (lst.length + size - 1) / size := by
  intro n
  induction n with
  | zero =>
    intro lst hlen
    have : lst = [] := List.eq_nil_of_length_eq_zero (by omega)
    subst this
    have hz : (size - 1) / size = 0 := Nat.div_eq_of_lt (by omega)
    simp [chunked_eq, hz]
  | succ n ih =>
    intro lst hlen
    rcases eq_or_ne lst [] with hnil | hne
    · subst hnil
      have hz : (size - 1) / size = 0 := Nat.div_eq_of_lt (by omega)
      simp [chunked_eq, hz]
    · have hpos : 0 < lst.length := List.length_pos.mpr hne
      rw [chunked_eq, if_neg (by omega), if_neg (by simpa [List.isEmpty_iff] using hne)]
      rw [List.length_cons, ih (lst.drop size) (by simp only [List.length_drop]; omega)]
      simp only [List.length_drop]
      rcases le_or_lt lst.length size with hle | hlt
      · have h0 : lst.length - size = 0 := by omega
        rw [h0]
        have h1 : (0 + size - 1) / size = 0 := Nat.div_eq_of_lt (by omega)
        rw [h1]
        have h2 : (lst.length + size - 1) / size = 1 :=
          Nat.div_eq_of_lt_le (by omega) (by omega)
        omega
      · have h3 : lst.length - size + size - 1 = lst.length - 1 := by omega
        have h4 : lst.length + size - 1 = lst.length - 1 + size := by omega
        rw [h3, h4, Nat.add_div_right _ hs]

lemma chunked_size_le {size : Nat} (hs : 0 < size) :
    ∀ (n : Nat) (lst : List String), lst.length ≤ n →
      ∀ c ∈ chunked lst size, c.length ≤ size := by
  intro n
  induction n with
  | zero =>
    intro lst hlen
    have : lst = [] := List.eq_nil_of_length_eq_zero (by omega)
    subst this
    simp [chunked_eq]
  | succ n ih =>
    intro lst hlen c hc
    rcases eq_or_ne lst [] with hnil | hne
    · subst hnil
      simp [chunked_eq] at hc
    · have hpos : 0 < lst.length := List.length_pos.mpr hne
      rw [chunked_eq, if_neg (by omega),
        if_neg (by simpa [List.isEmpty_iff] using hne)] at hc
      rcases List.mem_cons.mp hc with h | h
      · subst h
        exact List.length_take_le size lst
      · exact ih (lst.drop size) (by simp only [List.length_drop]; omega) c h

lemma search_videos_aux_length_le (provider : Nat → Nat → SearchPage) (limit : Nat)
    (hprov : ∀ call m, ((provider call m).items.filterMap id).length ≤ m) :
    ∀ (fuel call : Nat) (acc : List String), acc.length ≤ limit →
      (search_videos_aux provider limit call fuel acc).1.length ≤ limit := by
  intro fuel
  induction fuel with
  | zero =>
    intro call acc hacc
    simpa [search_videos_aux] using hacc
  | succ fuel ih =>
    intro call acc hacc
    by_cases hlt : acc.length < limit
    · have hlen : (acc ++ (provider call (min 50 (limit - acc.length))).items.filterMap id).length
          ≤ limit := by
        rw [List.length_append]
        have := hprov call (min 50 (limit - acc.length))
        omega
      cases hp : (provider call (min 50 (limit - acc.length))).nextPageToken with
      | none => simpa [search_videos_aux, hlt, hp] using hlen
      | some t =>
        have := ih (call + 1)
          (acc ++ (provider call (min 50 (limit - acc.length))).items.filterMap id) hlen
        simpa [search_videos_aux, hlt, hp] using this
    · simpa [search_videos_aux, hlt] using hacc

lemma search_videos_aux_requests_le (provider : Nat → Nat → SearchPage) (limit : Nat) :
    ∀ (fuel call : Nat) (acc : List String),
      ∀ r ∈ (search_videos_aux provider limit call fuel acc).2, r ≤ 50 := by
  intro fuel
  induction fuel with
  | zero =>
    intro call acc r hr
    simp [search_videos_aux] at hr
  | succ fuel ih =>
    intro call acc r hr
    by_cases hlt : acc.length < limit
    · cases hp : (provider call (min 50 (limit - acc.length))).nextPageToken with
      | none =>
        simp [search_videos_aux, hlt, hp] at hr
        omega
      | some t =>
        simp only [search_videos_aux, if_pos hlt, hp] at hr
        rcases List.mem_cons.mp hr with h | h
        · subst h
          omega
        · exact ih (call + 1) _ r h
    · simp [search_videos_aux, hlt] at hr

lemma search_videos_first_page_stop (provider : Nat → Nat → SearchPage) (limit fuel : Nat)
    (h0 : 0 < limit) (hf : 0 < fuel)
    (hp : (provider 0 (min 50 limit)).nextPageToken = none) :
    search_videos provider limit fuel =
      ((provider 0 (min 50 limit)).items.filterMap id, [min 50 limit]) := by
  obtain ⟨f, rfl⟩ : ∃ f, fuel = f + 1 := ⟨fuel - 1, by omega⟩
  rw [search_videos]
  simp [search_videos_aux, h0, hp]

lemma get_videos_stats_aux_abort (isodateParse : String → Option ℚ)
    (oracle : Nat → Nat → Attempt (List VideoItem)) (retries : Nat) (backoff : ℚ) :
    ∀ (k : Nat) (bs : List (List String)) (i0 : Nat) (rows : List VideoRow)
      (l : Option (Attempt (List VideoItem))), k < bs.length →
      (∀ i < k, ∃ items, (safe_execute (oracle (i0 + i)) retries backoff).1 = .ok items) →
      (safe_execute (oracle (i0 + k)) retries backoff).1 = .abortExhausted l →
      get_videos_stats_aux isodateParse oracle retries backoff bs i0 rows =
        .error (.abortExhausted l) := by
  intro k
  induction k with
  | zero =>
    intro bs i0 rows l hk _hok habort
    match bs, hk with
    | b :: bs, _ =>
      rw [show i0 + 0 = i0 by omega] at habort
      simp [get_videos_stats_aux, habort]
  | succ k ih =>
    intro bs i0 rows l hk hok habort
    match bs, hk with
    | b :: bs, hk =>
      obtain ⟨items, hitems⟩ := hok 0 (Nat.succ_pos k)
      rw [show i0 + 0 = i0 by omega] at hitems
      simp only [get_videos_stats_aux, hitems]
      refine ih bs (i0 + 1) (rows ++ items.map (rowOfItem isodateParse)) l (by
        simpa using Nat.lt_of_succ_lt_succ hk) ?_ ?_
      · intro i hi
        obtain ⟨its, hits⟩ := hok (i + 1) (by omega)
        exact ⟨its, by rwa [show i0 + (i + 1) = i0 + 1 + i by omega] at hits⟩
      · rwa [show i0 + 1 + k = i0 + (k + 1) by omega]

/-- The decode discipline of one statistics field run through
`safe_int(·, 0)`: missing or unparseable decodes to `0`, a parseable string
decodes to the parsed integer, and the result is non-negative unless the
raw string itself parses to a negative integer, which is passed through. -/
def decode_ok (raw : Option String) (v : Int) : Prop :=
  (raw = none → v = 0) ∧
  (∀ s, raw = some s → py_int? s = none → v = 0) ∧
  (∀ s n, raw = some s → py_int? s = some n → v = n) ∧
  (0 ≤ v ∨ ∃ s, raw = some s ∧ py_int? s = some v ∧ v < 0)

lemma decode_ok_safe_int (raw : Option String) : decode_ok raw (safe_int raw 0) := by
  cases raw with
  | none => exact ⟨fun _ => rfl, by simp, by simp, Or.inl le_rfl⟩
  | some s =>
    cases hp : py_int? s with
    | none =>
      refine ⟨by simp, fun s2 hs2 _ => ?_, fun s2 n hs2 hn => ?_, Or.inl ?_⟩
      · cases hs2
        simp [safe_int, hp]
      · cases hs2
        rw [hp] at hn
        cases hn
      · simp [safe_int, hp]
    | some n =>
      have hval : safe_int (some s) 0 = n := by simp [safe_int, hp]
      refine ⟨by simp, fun s2 hs2 hn2 => ?_, fun s2 m hs2 hm => ?_, ?_⟩
      · cases hs2
        rw [hp] at hn2
        cases hn2
      · cases hs2
        rw [hp] at hm
        cases hm
        exact hval
      · rcases le_or_lt 0 n with hn | hn
        · exact Or.inl (by omega)
        · exact Or.inr ⟨s, rfl, by rw [hp, hval], by omega⟩

/-- Attempt oracle with one transient failure followed by a quota error. -/
def attQuota : Nat → Attempt Nat := fun n =>
  if n = 1 then .excError "timeout" else .httpError "quotaExceeded"

/-- C1: `_safe_execute` classifies every API error: a terminal reason
(quota/daily-limit exceeded; key invalid/forbidden/referrer-blocked; bad
request) yields its category-specific abort immediately, with no sleep and
no retry after it; any other error sleeps `backoff ** attempt` and the next
attempt runs, up to `retries` attempts in total; when every attempt fails
the run aborts reporting the last error. -/
theorem c1_safe_execute_error_policy {α : Type} (att : Nat → Attempt α) (retries : Nat)
    (backoff : ℚ) :
    (∀ k reason t, k < retries → (∀ j < k, nonTerminalB (att (1 + j)) = true) →
      att (1 + k) = .httpError reason → classifyTerminal reason = some t →
      safe_execute att retries backoff = (ExecResult.ofTerminal t, sleepSchedule backoff k)) ∧
    (∀ k r, k < retries → (∀ j < k, nonTerminalB (att (1 + j)) = true) →
      att (1 + k) = .success r →
      safe_execute att retries backoff = (.ok r, sleepSchedule backoff k)) ∧
    ((∀ j < retries, nonTerminalB (att (1 + j)) = true) → 0 < retries →
      safe_execute att retries backoff =
        (.abortExhausted (some (att retries)), sleepSchedule backoff retries)) :=
  ⟨fun k reason t hk hpre hatt hcls =>
      safe_execute_terminal att retries backoff k reason t hk hpre hatt hcls,
   fun k r hk hpre hatt => safe_execute_success att retries backoff k r hk hpre hatt,
   fun hpre hpos => safe_execute_exhausted att retries backoff hpos hpre⟩

/-- C1 witness: a timeout on attempt 1 (one sleep of `backoff ** 1`), then
`quotaExceeded` on attempt 2 aborts with the quota category at once. -/
theorem c1_witness :
    safe_execute attQuota 3 2 = (ExecResult.ofTerminal TerminalKind.quota, sleepSchedule 2 1) :=
  (c1_safe_execute_error_policy attQuota 3 2).1 1 "quotaExceeded" TerminalKind.quota
    (by decide) (by decide) (by decide) (by decide)

/-- C2: a merged record whose subscriber count is the sentinel −1 is
admitted by neither the trending mask nor the general mask, whatever the
thresholds are. -/
theorem c2_sentinel_never_admitted (r : MergedRow) (max_subs_hot : Int) (min_dur_hot : ℚ)
    (min_views_hot : Int) (cutoff : ℚ) (min_views_general : Int)
    (min_duration_general : ℚ) (max_subs_general : Int) (hsubs : r.subs = some (-1)) :
    trendingFilter max_subs_hot min_dur_hot min_views_hot cutoff r = false ∧
    generalFilter min_views_general min_duration_general max_subs_general r = false := by
  constructor
  · simp [trendingFilter, subsCmp, hsubs]
  · simp [generalFilter, subsCmp, hsubs]

/-- A merged record with the unknown-subscriber sentinel. -/
def rowSentinel : MergedRow where
  videoId := "v0"
  title := "t0"
  publishedAt := 100
  channelId := "c0"
  channelTitle := "ch0"
  categoryId := "22"
  views := 1000000
  likes := 10
  comments := 5
  duration_min := 60
  thumbnail := none
  subs := some (-1)
  country := none

/-- C2 witness: the sentinel row fails both masks at concrete thresholds. -/
theorem c2_witness :
    trendingFilter 20000 20 10000 0 rowSentinel = false ∧
    generalFilter 200000 10 10000 rowSentinel = false :=
  c2_sentinel_never_admitted rowSentinel 20000 20 10000 0 200000 10 10000 rfl

/-- C3: `chunked(lst, 50)` yields exactly `⌈N/50⌉` chunks, each of size at
most 50, whose in-order concatenation is the original list. -/
theorem c3_chunked_partition (lst : List String) :
    (chunked lst 50).length = (lst.length + 50 - 1) / 50 ∧
    (∀ c ∈ chunked lst 50, c.length ≤ 50) ∧
    (chunked lst 50).flatten = lst :=
  ⟨chunked_length (by omega) lst.length lst le_rfl,
   chunked_size_le (by omega) lst.length lst le_rfl,
   chunked_flatten (by omega) lst.length lst le_rfl⟩

/-- C3 witness at a concrete three-element list: one chunk of size 3. -/
theorem c3_witness :
    (chunked ["a", "b", "c"] 50).length = ((["a", "b", "c"] : List String).length + 50 - 1) / 50 ∧
    (∀ c ∈ chunked ["a", "b", "c"] 50, c.length ≤ 50) ∧
    (chunked ["a", "b", "c"] 50).flatten = ["a", "b", "c"] :=
  c3_chunked_partition ["a", "b", "c"]

/-- A merged record published one day after `NOW_UTC` (taken as time 0)
that passes every trending threshold. -/
def futureRow : MergedRow where
  videoId := "v1"
  title := "t1"
  publishedAt := 1
  channelId := "c1"
  channelTitle := "ch1"
  categoryId := "22"
  views := 10000
  likes := 0
  comments := 0
  duration_min := 30
  thumbnail := none
  subs := some 500
  country := none

/-- C4 counterexample: a record admitted to the trending view whose
publication timestamp lies after `NOW_UTC` gets `delta_days = -1`, which is
not zero and hence not replaced, so its velocity is `-10000 < 0`: the
derived velocity is not non-negative, and the divisor is not
`max(elapsed_days, epsilon)`. -/
theorem c4_counterexample :
    trendingWithVelocity [futureRow] 20000 20 10000 (-7) 0 = [(futureRow, -10000)] ∧
    ¬ (0 : ℚ) ≤ -10000 := by
  have hfilter : trendingFilter 20000 20 10000 (-7) futureRow = true := by decide
  have hvel : views_per_day (10000 : ℤ) ((0 : ℚ) - 1) = -10000 := by
    have hdivisor : viewsPerDayDivisor ((0 : ℚ) - 1) = -1 := by
      unfold viewsPerDayDivisor
      norm_num
    unfold views_per_day roundTo1
    rw [hdivisor]
    have h2 : (10 : ℚ) * (((10000 : ℤ) : ℚ) / (-1)) = ((-100000 : ℤ) : ℚ) := by norm_num
    rw [h2, round_intCast]
    norm_num
  constructor
  · unfold trendingWithVelocity
    rw [show List.filter (trendingFilter 20000 20 10000 (-7)) [futureRow] = [futureRow] from by
      simp [List.filter_cons, hfilter]]
    simp only [List.map_cons, List.map_nil]
    rw [show futureRow.views = (10000 : ℤ) from rfl,
      show futureRow.publishedAt = (1 : ℚ) from rfl, hvel]
  · norm_num

/-- C4 (amended): the divisor only substitutes `0.0001` for an elapsed-days
value equal to exactly zero, so the division never divides by zero (the
velocity is a well-defined finite rational); and for any record whose
elapsed time is non-negative — publication not after `NOW_UTC` — the
velocity is non-negative. -/
theorem c4_velocity_amended (views : Int) (delta_days : ℚ) (hv : 0 ≤ views)
    (hd : 0 ≤ delta_days) :
    viewsPerDayDivisor delta_days ≠ 0 ∧ 0 ≤ views_per_day views delta_days := by
  have hdiv : 0 < viewsPerDayDivisor delta_days := by
    unfold viewsPerDayDivisor
    split
    · norm_num
    · rename_i hne
      exact lt_of_le_of_ne hd (Ne.symm hne)
  refine ⟨ne_of_gt hdiv, ?_⟩
  have hq : 0 ≤ (views : ℚ) / viewsPerDayDivisor delta_days :=
    div_nonneg (by exact_mod_cast hv) hdiv.le
  unfold views_per_day roundTo1
  have hr : (0 : ℤ) ≤ round (10 * ((views : ℚ) / viewsPerDayDivisor delta_days)) := by
    rw [round_eq]
    exact Int.floor_nonneg.mpr (by linarith)
  exact div_nonneg (by exact_mod_cast hr) (by norm_num)

/-- C4 witness: 500 views over 2 elapsed days give a non-negative velocity
and a non-zero divisor. -/
theorem c4_witness : viewsPerDayDivisor 2 ≠ 0 ∧ 0 ≤ views_per_day 500 2 :=
  c4_velocity_amended 500 2 (by norm_num) (by norm_num)

/-- C5: provided the provider returns at most the requested number of
usable results per page, the paginator collects at most `limit`
identifiers; every page requests at most 50 results; and when the first
page carries no continuation token the call sequence stops there, without
error, returning exactly that page of usable identifiers. -/
theorem c5_search_videos_cap (provider : Nat → Nat → SearchPage) (limit fuel : Nat)
    (hprov : ∀ call m, ((provider call m).items.filterMap id).length ≤ m) :
    (search_videos provider limit fuel).1.length ≤ limit ∧
    (∀ r ∈ (search_videos provider limit fuel).2, r ≤ 50) ∧
    (0 < limit → 0 < fuel → (provider 0 (min 50 limit)).nextPageToken = none →
      search_videos provider limit fuel =
        ((provider 0 (min 50 limit)).items.filterMap id, [min 50 limit])) :=
  ⟨search_videos_aux_length_le provider limit hprov fuel 0 [] (by simp),
   search_videos_aux_requests_le provider limit fuel 0 [],
   fun h0 hf hp => search_videos_first_page_stop provider limit fuel h0 hf hp⟩

/-- A provider that honors `maxResults` exactly and never pages further. -/
def honestProvider : Nat → Nat → SearchPage := fun _ m =>
  { items := List.replicate m (some "vid"), nextPageToken := none }

/-- C5 witness: with a cap of 3 the paginator returns exactly the first
page and its 3 identifiers from one request of size `min 50 3 = 3`. -/
theorem c5_witness :
    (search_videos honestProvider 3 5).1.length ≤ 3 ∧
    (∀ r ∈ (search_videos honestProvider 3 5).2, r ≤ 50) ∧
    (0 < 3 → 0 < 5 → (honestProvider 0 (min 50 3)).nextPageToken = none →
      search_videos honestProvider 3 5 =
        ((honestProvider 0 (min 50 3)).items.filterMap id, [min 50 3])) :=
  c5_search_videos_cap honestProvider 3 5 (by
    intro call m
    simp [honestProvider])

/-- C6 counterexample: with items found, no category restriction, an empty
trending view and a non-empty general view, the run emits the
empty-trending message but is not terminated — it proceeds and renders the
general table. -/
theorem c6_counterexample :
    Event.infoNoTrending ∈ pipeline_events false false false true false false ∧
    Event.stopped ∉ pipeline_events false false false true false false ∧
    Event.tableGeneral ∈ pipeline_events false false false true false false := by
  decide

/-- C6 (amended): the no-items, empty-category-restriction and
empty-general stages each terminate the run with their own message; an
empty trending view emits its own message and suppresses the trending
table, but the run continues — with the general view enabled and
non-empty, the general table is still rendered; only an empty general view
stops it afterwards. -/
theorem c6_empty_stage_policy_amended :
    ∀ vE cS cE tE sT gE : Bool,
      (vE = true → pipeline_events vE cS cE tE sT gE = [.warnNoVideos, .stopped]) ∧
      (vE = false → (cS && cE) = true →
        pipeline_events vE cS cE tE sT gE = [.infoNoCategory, .stopped]) ∧
      (vE = false → (cS && cE) = false → tE = true →
        Event.infoNoTrending ∈ pipeline_events vE cS cE tE sT gE ∧
        Event.tableTrending ∉ pipeline_events vE cS cE tE sT gE ∧
        (sT = false → gE = false → Event.tableGeneral ∈ pipeline_events vE cS cE tE sT gE) ∧
        (sT = false → gE = false → Event.stopped ∉ pipeline_events vE cS cE tE sT gE)) ∧
      (vE = false → (cS && cE) = false → sT = false → gE = true →
        pipeline_events vE cS cE tE sT gE =
          (if tE then [Event.infoNoTrending] else [Event.tableTrending]) ++
            [.warnNoGeneral, .stopped]) := by
  intro vE cS cE tE sT gE
  refine ⟨?_, ?_, ?_, ?_⟩ <;>
    (cases vE <;> cases cS <;> cases cE <;> cases tE <;> cases sT <;> cases gE <;> decide)

/-- C6 witness: non-empty stages down to an empty general view end with the
general-stage warning and a stop. -/
theorem c6_witness :
    pipeline_events false false false false false true =
      (if false then [Event.infoNoTrending] else [Event.tableTrending]) ++
        [Event.warnNoGeneral, Event.stopped] :=
  (c6_empty_stage_policy_amended false false false false false true).2.2.2 rfl rfl rfl rfl

/-- A per-chunk oracle: the request for the first chunk succeeds with no items,
every request for the second chunk fails with a transient backend error. -/
def oracleChunkFail : Nat → Nat → Attempt (List VideoItem) := fun chunk _ =>
  if chunk = 0 then .success [] else .httpError "backendError"

/-- C7 counterexample: with 51 identifiers (two chunks), a persistent
non-terminal failure on the second chunk makes `get_videos_stats` abort
the whole run (no warning-and-continue, no partial result): the enrichment
returns the exhausted-retries abort, not a row list. -/
theorem c7_counterexample :
    get_videos_stats (fun _ => none) oracleChunkFail 3 2 (List.replicate 51 "v") =
      .error (.abortExhausted (some (.httpError "backendError"))) := by
  rfl

/-- C7 (amended): on a chunk-level non-terminal failure the wrapper sleeps
and retries that chunk; when all `retries` attempts fail, the entire run
aborts reporting the last error — remaining chunks are not processed and
no partial rows are returned. -/
theorem c7_chunk_failure_aborts (isodateParse : String → Option ℚ)
    (oracle : Nat → Nat → Attempt (List VideoItem)) (retries : Nat) (backoff : ℚ)
    (ids : List String) (k : Nat) (hpos : 0 < retries) (hk : k < (chunked ids 50).length)
    (hfail : ∀ j < retries, nonTerminalB (oracle k (1 + j)) = true)
    (hok : ∀ i < k, ∃ items, (safe_execute (oracle i) retries backoff).1 = .ok items) :
    get_videos_stats isodateParse oracle retries backoff ids =
      .error (.abortExhausted (some (oracle k retries))) := by
  have habort : (safe_execute (oracle k) retries backoff).1 =
      .abortExhausted (some (oracle k retries)) := by
    rw [safe_execute_exhausted (oracle k) retries backoff hpos hfail]
  rw [get_videos_stats]
  exact get_videos_stats_aux_abort isodateParse oracle retries backoff k (chunked ids 50) 0 []
    (some (oracle k retries)) hk
    (fun i hi => by simpa using hok i hi)
    (by simpa using habort)

/-- C7 witness: the amended abort-on-exhausted-chunk behaviour at the
concrete two-chunk input of the counterexample. -/
theorem c7_witness :
    get_videos_stats (fun _ => none) oracleChunkFail 3 2 (List.replicate 51 "v") =
      .error (.abortExhausted (some (oracleChunkFail 1 3))) :=
  c7_chunk_failure_aborts (fun _ => none) oracleChunkFail 3 2 (List.replicate 51 "v") 1
    (by decide) (by decide) (by decide)
    (fun i hi => ⟨[], by
      have : i = 0 := by omega
      subst this
      rfl⟩)

/-- C8 counterexample: the aggregated video-identifier list is the plain
concatenation of the per-keyword results and is passed to item enrichment
without deduplication — two keywords finding the same video yield a
duplicated list. -/
theorem c8_counterexample :
    all_video_ids [["a"], ["a"]] = ["a", "a"] ∧
    ¬ (all_video_ids [["a"], ["a"]]).Nodup := by
  constructor
  · rfl
  · decide

/-- C8 (amended): the item-identifier list is passed to enrichment as the
undeduplicated concatenation of per-keyword results; only the publisher
identifier list is deduplicated — `unique_channels` is duplicate-free,
sorted, and contains exactly the non-null channel ids. -/
theorem c8_channel_dedup_amended (channelIds : List (Option String)) :
    (unique_channels channelIds).Nodup ∧
    (unique_channels channelIds).Sorted (· ≤ ·) ∧
    (∀ s : String, s ∈ unique_channels channelIds ↔ some s ∈ channelIds) := by
  refine ⟨?_, ?_, ?_⟩
  · exact ((List.perm_insertionSort _ _).nodup_iff).mpr (List.nodup_dedup _)
  · exact List.sorted_insertionSort _ _
  · intro s
    rw [unique_channels, List.mem_insertionSort, List.mem_dedup, List.mem_filterMap]
    constructor
    · rintro ⟨a, ha, hid⟩
      cases hid
      exact ha
    · intro h
      exact ⟨some s, h, rfl⟩

/-- C8 witness: a concrete channel-id column with a duplicate and a null. -/
theorem c8_witness :
    (unique_channels [some "b", none, some "a", some "b"]).Nodup ∧
    (unique_channels [some "b", none, some "a", some "b"]).Sorted (· ≤ ·) ∧
    (∀ s : String, s ∈ unique_channels [some "b", none, some "a", some "b"] ↔
      some s ∈ [some "b", none, some "a", some "b"]) :=
  c8_channel_dedup_amended [some "b", none, some "a", some "b"]

/-- A response item whose view count string parses to a negative integer. -/
def negItem : VideoItem where
  id := some "v9"
  title := none
  publishedAt := none
  channelId := none
  channelTitle := none
  categoryId := none
  viewCount := some "-5"
  likeCount := none
  commentCount := none
  duration := none
  thumbHigh := none
  thumbMedium := none
  thumbDefault := none

/-- C9 counterexample: `safe_int` passes a parseable negative count string
straight through, so an enriched record can carry a negative view count —
the decoded counts are not always non-negative. -/
theorem c9_counterexample :
    (rowOfItem (fun _ => none) negItem).views = -5 ∧
    (rowOfItem (fun _ => none) negItem).views < 0 := by
  constructor
  · decide
  · decide

/-- C9 (amended): every decoded view/like/comment count is an integer that
is `0` when the raw field is missing or unparseable, equals the parsed
value when the string parses, and is therefore non-negative except when
the raw string itself parses to a negative integer, which is passed
through unchanged. -/
theorem c9_decoded_counts_amended (isodateParse : String → Option ℚ) (it : VideoItem) :
    decode_ok it.viewCount (rowOfItem isodateParse it).views ∧
    decode_ok it.likeCount (rowOfItem isodateParse it).likes ∧
    decode_ok it.commentCount (rowOfItem isodateParse it).comments :=
  ⟨decode_ok_safe_int it.viewCount, decode_ok_safe_int it.likeCount,
   decode_ok_safe_int it.commentCount⟩

/-- C9 witness: the decode discipline instantiated at the concrete item of
the counterexample. -/
theorem c9_witness :
    decode_ok negItem.viewCount (rowOfItem (fun _ => none) negItem).views ∧
    decode_ok negItem.likeCount (rowOfItem (fun _ => none) negItem).likes ∧
    decode_ok negItem.commentCount (rowOfItem (fun _ => none) negItem).comments :=
  c9_decoded_counts_amended (fun _ => none) negItem

/-- C10: `build_links` appends `videoUrl` and `channelUrl` as pure
functions of `videoId` and `channelId`, and every pre-existing column of
every row is unchanged (the original frame, being a value, is untouched —
the code copies the frame before assigning). -/
theorem c10_build_links_frame (df : List MergedRow) :
    (build_links df).map LinkedRow.toMergedRow = df ∧
    (build_links df).map (fun r => r.videoUrl) =
      df.map (fun r => "https://www.youtube.com/watch?v=" ++ r.videoId) ∧
    (build_links df).map (fun r => r.channelUrl) =
      df.map (fun r => "https://www.youtube.com/channel/" ++ r.channelId) := by
  refine ⟨?_, ?_, ?_⟩
  · rw [build_links, List.map_map]
    exact List.map_id df
  · rw [build_links, List.map_map]
    exact List.map_congr_left fun r _ => rfl
  · rw [build_links, List.map_map]
    exact List.map_congr_left fun r _ => rfl

end YTProspect
